import Mathlib

/- Shallow embedding of the Zhuangzi art-generation pipeline:
   `generate_zhuangzi_art.py` (full run) and
   `regenerate_missing_images.py` (repair run).

   External effects (PDF page extraction, the two reasoning-service calls,
   the image-generation service, HTTP download + disk save of an image,
   disk write of a prompt sidecar) are modelled as explicit environments;
   theorems quantify over all environments, so every combination of
   success and failure of the external calls is covered.  A Python
   exception crossing a function boundary is modelled as `none` / the
   error branch of the embedded function. -/

/-- The two interpretation styles produced for every motif. -/
inductive Style where
  | naturalistic
  | abstract
deriving DecidableEq, Fintype

/-- Deterministic artifact names used by both drivers:
`chapter_<c>_image_<r>_<style>.png`, the matching
`chapter_<c>_image_<r>_<style>_prompt.txt` sidecar, and
`chapter_images_metadata.json`.  The `rank` component is the raw value of
the `rank` key of the ranked motif (`none` renders as the default string
`unknown` from `img_meta.get('rank', 'unknown')`).  The textual naming
scheme is injective in `(chapter, rank, style)`, so file identity is
modelled structurally. -/
inductive FileName where
  | image (chapter : Nat) (rank : Option Int) (style : Style)
  | promptTxt (chapter : Nat) (rank : Option Int) (style : Style)
  | metadataJson
deriving DecidableEq

/-- One element of the `images` array returned by the reasoning service to
`analyze_chapter_imagery`: a JSON object each of whose keys may be absent
(read in Python with `dict.get` or raising `[...]` access). -/
structure MotifDict where
  rank : Option Int
  image : Option String
  significance : Option String
  location : Option Rat
deriving DecidableEq

/-- Sort key of `analyze_chapter_imagery`: `lambda x: x.get('rank', 99)`. -/
def rankKey (m : MotifDict) : Int := m.rank.getD 99

/-- The ordering `sorted(result.get("images", []), key=...)` sorts by. -/
def rankRel (a b : MotifDict) : Prop := rankKey a ≤ rankKey b

instance : DecidableRel rankRel := fun _ _ => Int.decLe _ _

instance : IsTotal MotifDict rankRel := ⟨fun a b => Int.le_total (rankKey a) (rankKey b)⟩

instance : IsTrans MotifDict rankRel := ⟨fun _ _ _ h₁ h₂ => le_trans h₁ h₂⟩

/-- `ZhuangziArtGenerator.analyze_chapter_imagery`.  The service call /
JSON parse either raises (`none`: the `except` branch returns `[]`) or
yields the parsed `images` array (`result.get("images", [])`); the list is
sorted ascending by the rank key and truncated to the first 3.  Python
`sorted` is a stable sort, as is `List.insertionSort`; a stable sort for a
total preorder is unique, so the two agree. -/
def analyze_chapter_imagery (resp : Option (List MotifDict)) : List MotifDict :=
  match resp with
  | none => []
  | some ms => (ms.insertionSort rankRel).take 3

/-- Style clause appended to the naturalistic service response in
`generate_image_prompts`. -/
def natStyleSuffix : String :=
  ". Style: Render in warm sepia tones with misty, dreamlike atmosphere. No text or human figures."

/-- Style clause appended to the abstract service response in
`generate_image_prompts`. -/
def absStyleSuffix : String :=
  ". Style: Render in amber and brown tones with flowing, ethereal qualities. No text or human figures."

/-- Fallback naturalistic prompt built in the `except` branch of
`generate_image_prompts`; it interpolates only `scene['image']`. -/
def natFallback (img : String) : String :=
  "A misty landscape featuring " ++ img ++
    " in warm sepia tones, with soft edges and ethereal atmosphere. No text or human figures."

/-- Fallback abstract prompt built in the `except` branch of
`generate_image_prompts`; it interpolates only `scene['image']`. -/
def absFallback (img : String) : String :=
  "An abstract, flowing interpretation of " ++ img ++
    " in amber tones, inspired by Chinese calligraphy. No text or human figures."

/-- `ZhuangziArtGenerator.generate_image_prompts`.  The `try` block builds
the user message with raising accesses `scene['image']` and
`scene['significance']` before the service call; `svc` is the service call
plus JSON parse (`none` = exception).  On success both responses get the
fixed style suffix appended.  Any exception in the `try` block falls into
the `except` branch, whose fallback f-strings access `scene['image']`
again: when that key is absent the `KeyError` propagates out of the
function (`none`). -/
def generate_image_prompts (svc : MotifDict → Option (String × String))
    (scene : MotifDict) : Option (String × String) :=
  match scene.image with
  | none => none
  | some img =>
    match scene.significance with
    | none => some (natFallback img, absFallback img)
    | some _ =>
      match svc scene with
      | some resp => some (resp.1 ++ natStyleSuffix, resp.2 ++ absStyleSuffix)
      | none => some (natFallback img, absFallback img)

/-- `ZhuangziArtGenerator.extract_text_from_pdf`, pages of the chapter's
page range given as extraction outcomes in page order (`some text` =
`page.get_text()` returns, `none` = the page raises).  The single `try`
wraps the whole page loop, so the first raising page transfers control to
the `except` handler and the accumulated prefix is returned; the document
handle is closed in `finally` either way. -/
def extract_text_from_pdf : List (Option String) → String
  | [] => ""
  | some t :: rest => t ++ extract_text_from_pdf rest
  | none :: _ => ""

/-- `MetadataRecord` as appended by `process_chapters`: the raw motif
fields read with `dict.get` defaults, and the two path fields (`none` =
JSON `null`). -/
structure MetadataRecord where
  chapter : Nat
  rank : Option Int
  image_description : String
  significance : String
  location : Rat
  naturalistic_path : Option FileName
  abstract_path : Option FileName
deriving DecidableEq

/-- The path field of a record for a given style. -/
def MetadataRecord.pathFor (rec : MetadataRecord) : Style → Option FileName
  | Style.naturalistic => rec.naturalistic_path
  | Style.abstract => rec.abstract_path

/-- Select one style's prompt out of a synthesized prompt pair. -/
def styleSel : Style → String × String → String
  | Style.naturalistic, p => p.1
  | Style.abstract, p => p.2

/-- Observable external calls made while processing one motif, used to
state ordering properties of the run. -/
inductive Event where
  | writePrompt (chapter : Nat) (rank : Option Int) (style : Style)
  | genCall (chapter : Nat) (rank : Option Int) (style : Style)
deriving DecidableEq

/-- `true` exactly on prompt-sidecar write attempts. -/
def Event.isPromptWrite : Event → Bool
  | Event.writePrompt _ _ _ => true
  | Event.genCall _ _ _ => false

/-- External world of one full `process_chapters` run.  `pages c` is the
extraction outcome of each page of chapter `c`'s page range; `ranker c`
is the `analyze_chapter_imagery` service outcome for chapter `c`'s
(truncated) text; `promptService` is the `generate_image_prompts` service
call; `genImage p` is the URL when `client.images.generate(prompt=p)`
succeeds; `saveOk url f` tells whether the download of `url` and the save
to `f` both succeed inside `save_image`; `promptWriteOk f` tells whether
writing sidecar `f` succeeds (its failure is caught and only printed). -/
structure PipeEnv where
  pages : Nat → List (Option String)
  ranker : Nat → Option (List MotifDict)
  promptService : MotifDict → Option (String × String)
  genImage : String → Option String
  saveOk : String → FileName → Bool
  promptWriteOk : FileName → Bool

/-- Everything one iteration of the motif loop of `process_chapters`
produces: its external-call trace, the files it creates, and the metadata
record it appends (`none` when the iteration raises before the append and
the per-motif `except` skips to the next motif). -/
structure MotifResult where
  events : List Event
  files : List FileName
  record : Option MetadataRecord
deriving DecidableEq

/-- One iteration of the motif loop in `process_chapters` (lines 246-300):
synthesize both prompts, save both prompt sidecars first (each write
attempt is individually guarded), then for each style call the image
service and, when a URL comes back, attempt download+save and record the
filename in `image_paths` — the path is recorded whether or not the save
succeeds, since `save_image` swallows its errors.  Finally append the
metadata record.  When prompt synthesis raises (motif without an `image`
key) the per-motif `except` catches and nothing is produced. -/
def processMotif (env : PipeEnv) (chapter : Nat) (m : MotifDict) : MotifResult :=
  match generate_image_prompts env.promptService m with
  | none => ⟨[], [], none⟩
  | some prompts =>
    let r := m.rank
    let natPromptFile := FileName.promptTxt chapter r Style.naturalistic
    let absPromptFile := FileName.promptTxt chapter r Style.abstract
    let promptFiles :=
      (if env.promptWriteOk natPromptFile then [natPromptFile] else []) ++
        (if env.promptWriteOk absPromptFile then [absPromptFile] else [])
    let natFile := FileName.image chapter r Style.naturalistic
    let absFile := FileName.image chapter r Style.abstract
    let natOutcome : List FileName × Option FileName :=
      match env.genImage prompts.1 with
      | some url => ((if env.saveOk url natFile then [natFile] else []), some natFile)
      | none => ([], none)
    let absOutcome : List FileName × Option FileName :=
      match env.genImage prompts.2 with
      | some url => ((if env.saveOk url absFile then [absFile] else []), some absFile)
      | none => ([], none)
    { events := [Event.writePrompt chapter r Style.naturalistic,
        Event.writePrompt chapter r Style.abstract,
        Event.genCall chapter r Style.naturalistic,
        Event.genCall chapter r Style.abstract]
      files := promptFiles ++ natOutcome.1 ++ absOutcome.1
      record := some {
        chapter := chapter
        rank := r
        image_description := m.image.getD "unknown_image"
        significance := m.significance.getD ""
        location := m.location.getD 0
        naturalistic_path := natOutcome.2
        abstract_path := absOutcome.2 } }

/-- Chapter text as `process_chapters` sees it. -/
def chapterTextOf (env : PipeEnv) (c : Nat) : String :=
  extract_text_from_pdf (env.pages c)

/-- The ranked motifs the motif loop iterates over for chapter `c`:
empty when `if not chapter_text: continue` skips the chapter, otherwise
the output of `analyze_chapter_imagery`. -/
def chapterMotifs (env : PipeEnv) (c : Nat) : List MotifDict :=
  if chapterTextOf env c = "" then [] else analyze_chapter_imagery (env.ranker c)

/-- Metadata records appended while processing chapter `c`, in loop
order. -/
def chapterRecords (env : PipeEnv) (c : Nat) : List MetadataRecord :=
  (chapterMotifs env c).filterMap fun m => (processMotif env c m).record

/-- Files created while processing chapter `c`, in creation order. -/
def chapterFiles (env : PipeEnv) (c : Nat) : List FileName :=
  (chapterMotifs env c).flatMap fun m => (processMotif env c m).files

/-- External-call trace of chapter `c`, in call order. -/
def chapterEvents (env : PipeEnv) (c : Nat) : List Event :=
  (chapterMotifs env c).flatMap fun m => (processMotif env c m).events

/-- `for chapter in range(1, 8)`. -/
def chapterList : List Nat := [1, 2, 3, 4, 5, 6, 7]

/-- Outcome of a full `process_chapters` run: the call trace, the files
present in the artifact directory afterwards (the directory starts
empty), and the in-memory metadata list that `save_chapter_images_metadata`
flushes at the end. -/
structure RunResult where
  events : List Event
  files : List FileName
  metadata : List MetadataRecord
deriving DecidableEq

/-- `ZhuangziArtGenerator.process_chapters`: chapters 1..7 in order, each
contributing its trace, files and records by appending. -/
def process_chapters (env : PipeEnv) : RunResult :=
  { events := chapterList.flatMap (chapterEvents env)
    files := chapterList.flatMap (chapterFiles env)
    metadata := chapterList.flatMap (chapterRecords env) }

/-- Python `str.strip()` on the kernel representation of strings. -/
def pyStrip (s : String) : String :=
  ⟨(((s.data.dropWhile Char.isWhitespace).reverse).dropWhile Char.isWhitespace).reverse⟩

/-- Prompt text recovered from a sidecar's lines in `regenerate`:
`"".join(lines[1:]).strip() if len(lines) > 1 else ""`. -/
def promptTextOfLines (lines : List String) : String :=
  if 1 < lines.length then pyStrip (String.join (lines.drop 1)) else ""

/-- External world of a `regenerate` run (the artifact directory is
passed separately so two runs can share one environment):
`promptContent f` is the line list `pf.readlines()` of sidecar `f`
(`none` = the read raises); `genImage` and `saveOk` are as in
`PipeEnv`. -/
structure RegenEnv where
  promptContent : FileName → Option (List String)
  genImage : String → Option String
  saveOk : String → FileName → Bool

/-- What handling one (record, style) asset in `regenerate` produces:
the generation calls issued (by prompt text), files created, and the
increments of the three summary counters `regenerated_count`,
`missing_prompts`, `failed_generation`. -/
structure RegenOutcome where
  genCalls : List String
  newFiles : List FileName
  regenerated : Nat
  missingPrompts : Nat
  failedGeneration : Nat
deriving DecidableEq

/-- One `Check and Regenerate` block of `regenerate` for a single style:
skip when the image file exists; otherwise recover the prompt text from
the sidecar; a missing sidecar, a raising read, or empty recovered text
counts under `missing_prompts` with no generation call; otherwise call
the image service (`failed_generation` when it returns no URL), and on a
URL attempt the save — `regenerated_count` is incremented as soon as the
URL is obtained, whether or not the save succeeds. -/
def regenAsset (env : RegenEnv) (fs : List FileName) (c : Nat) (r : Option Int)
    (s : Style) : RegenOutcome :=
  let img := FileName.image c r s
  if img ∈ fs then ⟨[], [], 0, 0, 0⟩
  else
    let pf := FileName.promptTxt c r s
    if pf ∈ fs then
      match env.promptContent pf with
      | none => ⟨[], [], 0, 1, 0⟩
      | some lines =>
        let ptext := promptTextOfLines lines
        if ptext = "" then ⟨[], [], 0, 1, 0⟩
        else
          match env.genImage ptext with
          | none => ⟨[ptext], [], 0, 0, 1⟩
          | some url => ⟨[ptext], if env.saveOk url img then [img] else [], 1, 0, 0⟩
    else ⟨[], [], 0, 1, 0⟩

/-- Running state of a `regenerate` run: current artifact directory plus
the accumulated calls and counters. -/
structure RegenState where
  fs : List FileName
  genCalls : List String
  regenerated : Nat
  missingPrompts : Nat
  failedGeneration : Nat
deriving DecidableEq

/-- Fold one asset's outcome into the run state. -/
def applyOutcome (st : RegenState) (o : RegenOutcome) : RegenState :=
  { fs := st.fs ++ o.newFiles
    genCalls := st.genCalls ++ o.genCalls
    regenerated := st.regenerated + o.regenerated
    missingPrompts := st.missingPrompts + o.missingPrompts
    failedGeneration := st.failedGeneration + o.failedGeneration }

/-- One iteration of the metadata loop of `regenerate`: the naturalistic
asset first, then the abstract asset against the updated directory. -/
def regenItem (env : RegenEnv) (st : RegenState) (item : MetadataRecord) : RegenState :=
  applyOutcome
    (applyOutcome st (regenAsset env st.fs item.chapter item.rank Style.naturalistic))
    (regenAsset env
      (applyOutcome st (regenAsset env st.fs item.chapter item.rank Style.naturalistic)).fs
      item.chapter item.rank Style.abstract)

/-- The metadata loop of `regenerate`, items in file order. -/
def regenRun (env : RegenEnv) (md : List MetadataRecord) (st : RegenState) : RegenState :=
  match md with
  | [] => st
  | item :: rest => regenRun env rest (regenItem env st item)

/-- `regenerate(metadata_path, artwork_dir, client)` after the metadata
file has been loaded successfully: `fs` is the artifact directory at
start, `md` the loaded records. -/
def regenerate (env : RegenEnv) (fs : List FileName) (md : List MetadataRecord) :
    RegenState :=
  regenRun env md ⟨fs, [], 0, 0, 0⟩

/- Concrete environments used by the counterexamples and witnesses. -/

/-- Reasoning service whose prompt-synthesis call always raises. -/
def svcNone : MotifDict → Option (String × String) := fun _ => none

/-- A well-formed rank-1 motif. -/
def motifC1 : MotifDict :=
  { rank := some 1, image := some "tree", significance := some "use", location := some 0 }

/-- Full-run environment where chapter 1 yields one motif, both
generation calls return a URL, but only the naturalistic save succeeds:
the abstract download/save fails after a successful generation. -/
def envC1 : PipeEnv :=
  { pages := fun c => if c = 1 then [some "text"] else []
    ranker := fun c => if c = 1 then some [motifC1] else none
    promptService := svcNone
    genImage := fun _ => some "url"
    saveOk := fun _ f => match f with
      | FileName.image _ _ Style.naturalistic => true
      | _ => false
    promptWriteOk := fun _ => true }

/-- Metadata of a single (chapter 2, rank 1) record, as `regenerate`
loads it. -/
def mdC2 : List MetadataRecord :=
  [{ chapter := 2, rank := some 1, image_description := "d", significance := "s",
     location := 0, naturalistic_path := none, abstract_path := none }]

/-- Artifact directory holding only the naturalistic prompt sidecar for
(chapter 2, rank 1): both images are missing. -/
def fsC2 : List FileName := [FileName.promptTxt 2 (some 1) Style.naturalistic]

/-- Repair environment whose naturalistic sidecar for (2,1) holds a label
line plus the prompt `p`, and whose image-generation service always
fails. -/
def envC2 : RegenEnv :=
  { promptContent := fun f =>
      if f = FileName.promptTxt 2 (some 1) Style.naturalistic then
        some ["Naturalistic interpretation (Rank 1):", "p"]
      else none
    genImage := fun _ => none
    saveOk := fun _ _ => false }

/-- Full-run environment where the reasoning service returns two motifs
both carrying rank 7 for chapter 1. -/
def envC5 : PipeEnv :=
  { pages := fun c => if c = 1 then [some "text"] else []
    ranker := fun c =>
      if c = 1 then
        some [{ rank := some 7, image := some "x", significance := some "s", location := some 0 },
          { rank := some 7, image := some "y", significance := some "s", location := some 0 }]
      else none
    promptService := svcNone
    genImage := fun _ => none
    saveOk := fun _ _ => false
    promptWriteOk := fun _ => true }

/-- Full-run environment where the reasoning service returns one ranked
motif object that lacks the `image` key. -/
def envC6 : PipeEnv :=
  { pages := fun c => if c = 1 then [some "text"] else []
    ranker := fun c =>
      if c = 1 then
        some [{ rank := some 1, image := none, significance := some "s", location := some 0 }]
      else none
    promptService := svcNone
    genImage := fun _ => some "url"
    saveOk := fun _ _ => true
    promptWriteOk := fun _ => true }

/-- A motif produced by `envC5`, used by witnesses. -/
def motifW5 : MotifDict :=
  { rank := some 2, image := some "bird", significance := some "freedom", location := some 0 }

/-- Motif list for the C5 witness: distinct ranks inside {1,2,3}. -/
def msW5 : List MotifDict :=
  [motifW5, { motifW5 with rank := some 1, image := some "fish" }]

/-- Environment for the C5 witness: chapter 1 yields motifs with distinct
ranks inside the expected range. -/
def envW5 : PipeEnv :=
  { pages := fun c => if c = 1 then [some "text"] else []
    ranker := fun c => if c = 1 then some msW5 else none
    promptService := svcNone
    genImage := fun _ => none
    saveOk := fun _ _ => false
    promptWriteOk := fun _ => true }

/-- The record `envC1` produces for `motifC1` in chapter 1. -/
def recC1 : MetadataRecord :=
  { chapter := 1, rank := some 1, image_description := "tree", significance := "use",
    location := 0,
    naturalistic_path := some (FileName.image 1 (some 1) Style.naturalistic),
    abstract_path := some (FileName.image 1 (some 1) Style.abstract) }

/-- Metadata for the C2 witness: one record whose two image files are both
already present. -/
def mdW2 : List MetadataRecord :=
  [{ chapter := 3, rank := some 2, image_description := "d", significance := "s",
     location := 0,
     naturalistic_path := some (FileName.image 3 (some 2) Style.naturalistic),
     abstract_path := some (FileName.image 3 (some 2) Style.abstract) }]

/-- Artifact directory for the C2 witness: both expected files exist. -/
def fsW2 : List FileName :=
  [FileName.image 3 (some 2) Style.naturalistic, FileName.image 3 (some 2) Style.abstract]

/-- Repair environment for the C2 witness. -/
def envW2 : RegenEnv :=
  { promptContent := fun _ => none
    genImage := fun _ => none
    saveOk := fun _ _ => false }

/-- Repair environment for the C8 witness: the (4,1) naturalistic sidecar
exists but holds only its label line. -/
def envW8 : RegenEnv :=
  { promptContent := fun f =>
      if f = FileName.promptTxt 4 (some 1) Style.naturalistic then
        some ["Naturalistic interpretation (Rank 1):"]
      else none
    genImage := fun _ => some "url"
    saveOk := fun _ _ => true }

/-- A throwaway metadata record used to instantiate witnesses. -/
def recDummy : MetadataRecord :=
  { chapter := 0, rank := none, image_description := "", significance := "",
    location := 0, naturalistic_path := none, abstract_path := none }

/- ------------------------------------------------------------------ -/
/- Helper lemmas shared by the claim theorems.                         -/
/- ------------------------------------------------------------------ -/

theorem foldl_append_shift : ∀ (l : List String) (acc : String),
    l.foldl (fun r s => r ++ s) acc = acc ++ l.foldl (fun r s => r ++ s) "" := by
  intro l
  induction l with
  | nil => intro acc; simp
  | cons t rest ih =>
    intro acc
    simp only [List.foldl_cons]
    rw [ih (acc ++ t), ih ("" ++ t), ← String.append_assoc]
    simp

theorem string_join_cons (s : String) (l : List String) :
    String.join (s :: l) = s ++ String.join l := by
  simp only [String.join, List.foldl_cons]
  rw [foldl_append_shift l ("" ++ s)]
  simp

theorem string_length_zero {s : String} (h : s.length = 0) : s = "" := by
  cases s with
  | mk data =>
    cases data with
    | nil => rfl
    | cons c cs => simp [String.length] at h

theorem append_ne_empty_right (s t : String) (h : t ≠ "") : s ++ t ≠ "" := by
  intro he
  apply h
  have hlen := congrArg String.length he
  rw [String.length_append] at hlen
  exact string_length_zero (Nat.eq_zero_of_add_eq_zero_left hlen)

theorem append_ne_empty_left (s t : String) (h : s ≠ "") : s ++ t ≠ "" := by
  intro he
  apply h
  have hlen := congrArg String.length he
  rw [String.length_append] at hlen
  exact string_length_zero (Nat.eq_zero_of_add_eq_zero_right hlen)

theorem len_filterMap_eq_countP {α β : Type} (f : α → Option β) :
    ∀ l : List α, (l.filterMap f).length = l.countP (fun a => (f a).isSome) := by
  intro l
  induction l with
  | nil => rfl
  | cons a rest ih =>
    cases h : f a <;> simp [List.filterMap_cons, List.countP_cons, h, ih]

theorem pairwise_filterMap_rel {α β : Type} {R : α → α → Prop} {S : β → β → Prop}
    (f : α → Option β)
    (hf : ∀ a b, R a b → ∀ x, f a = some x → ∀ y, f b = some y → S x y) :
    ∀ {l : List α}, l.Pairwise R → (l.filterMap f).Pairwise S := by
  intro l
  induction l with
  | nil => intro; simp
  | cons a rest ih =>
    intro hp
    rw [List.pairwise_cons] at hp
    cases hfa : f a with
    | none => simpa [List.filterMap_cons, hfa] using ih hp.2
    | some x =>
      rw [List.filterMap_cons, hfa, List.pairwise_cons]
      refine ⟨?_, ih hp.2⟩
      intro y hy
      rw [List.mem_filterMap] at hy
      obtain ⟨b, hb, hfb⟩ := hy
      exact hf a b (hp.1 b hb) x hfa y hfb

theorem filterMap_map_sublist {α β γ : Type} (f : α → Option β) (g : β → γ) (h : α → γ)
    (hfg : ∀ a x, f a = some x → g x = h a) :
    ∀ l : List α, List.Sublist ((l.filterMap f).map g) (l.map h) := by
  intro l
  induction l with
  | nil => simp
  | cons a rest ih =>
    cases hfa : f a with
    | none =>
      rw [List.filterMap_cons, hfa, List.map_cons]
      exact (ih).cons (h a)
    | some x =>
      rw [List.filterMap_cons, hfa, List.map_cons, List.map_cons, hfg a x hfa]
      exact (ih).cons₂ (h a)

theorem pairwise_of_mem_rel {α : Type} {r : α → α → Prop} :
    ∀ l : List α, (∀ a ∈ l, ∀ b ∈ l, r a b) → l.Pairwise r := by
  intro l
  induction l with
  | nil => intro; simp
  | cons a rest ih =>
    intro h
    rw [List.pairwise_cons]
    constructor
    · intro b hb
      exact h a (by simp) b (by simp [hb])
    · exact ih fun x hx y hy => h x (by simp [hx]) y (by simp [hy])

theorem generate_image_prompts_none_iff (svc : MotifDict → Option (String × String))
    (m : MotifDict) : generate_image_prompts svc m = none ↔ m.image = none := by
  cases hi : m.image with
  | none => simp [generate_image_prompts, hi]
  | some img =>
    cases hs : m.significance with
    | none => simp [generate_image_prompts, hi, hs]
    | some sig =>
      cases hsvc : svc m with
      | none => simp [generate_image_prompts, hi, hs, hsvc]
      | some resp => simp [generate_image_prompts, hi, hs, hsvc]

/- ------------------------------------------------------------------ -/
/- Claim theorems.                                                     -/
/- ------------------------------------------------------------------ -/

/-- Claim C4, counterexample.  With a three-page range whose middle page
raises, `extract_text_from_pdf` returns only the first page's text: the
claim says every non-failing page still contributes, which would give
`"a" ++ "" ++ "c" = "ac"`. -/
theorem c4_counterexample :
    extract_text_from_pdf [some "a", none, some "c"] = "a" ∧
    ("a" : String) ≠ "a" ++ "" ++ "c" := by
  constructor
  · rfl
  · decide

/-- Claim C4 (amended).  A page error is caught and never propagates out
of chapter extraction, but the single `try` wraps the whole page loop, so
the result is the concatenated text of the pages before the first failing
page only; the failing page and every later page of the range contribute
nothing. -/
theorem c4_amended_error_isolation (ps : List (Option String)) :
    extract_text_from_pdf ps =
      String.join ((ps.takeWhile Option.isSome).map (fun o => o.getD "")) := by
  induction ps with
  | nil => rfl
  | cons p rest ih =>
    cases p with
    | none => simp [extract_text_from_pdf, List.takeWhile_cons, String.join]
    | some t =>
      simp [extract_text_from_pdf, List.takeWhile_cons, string_join_cons, ih]

/-- Claim C7: `analyze_chapter_imagery` returns at most 3 motif objects,
sorted ascending by the rank key; on a parsed response the output is
exactly the first 3 elements of the stable rank sort; on a service error
or unparseable response it returns the empty list instead of raising. -/
theorem c7_motif_ranker_contract (resp : Option (List MotifDict)) :
    (analyze_chapter_imagery resp).length ≤ 3 ∧
    (analyze_chapter_imagery resp).Pairwise rankRel ∧
    (∀ ms : List MotifDict,
      analyze_chapter_imagery (some ms) = (ms.insertionSort rankRel).take 3) ∧
    analyze_chapter_imagery none = [] := by
  refine ⟨?_, ?_, fun ms => rfl, rfl⟩
  · cases resp with
    | none => simp [analyze_chapter_imagery]
    | some ms => exact List.length_take_le 3 _
  · cases resp with
    | none => simp [analyze_chapter_imagery]
    | some ms =>
      exact (List.sorted_insertionSort rankRel ms).sublist (List.take_sublist 3 _)

theorem natFallback_ne_empty (img : String) : natFallback img ≠ "" := by
  unfold natFallback
  exact append_ne_empty_left _ _ (append_ne_empty_left _ _ (by decide))

theorem absFallback_ne_empty (img : String) : absFallback img ≠ "" := by
  unfold absFallback
  exact append_ne_empty_left _ _ (append_ne_empty_left _ _ (by decide))

/-- Claim C9, counterexample.  `generate_image_prompts` raises (rather
than falling back) on a motif whose `image` key is absent, because the
fallback f-strings re-read `scene['image']`; and the fallback pair is
built from the description alone — two motifs differing only in their
`significance` field get identical fallback prompts, so the fallback is
not built from the significance field. -/
theorem c9_counterexample :
    generate_image_prompts svcNone
        { rank := some 1, image := none, significance := some "s", location := some 0 } =
      none ∧
    generate_image_prompts svcNone
        { rank := some 1, image := some "tree", significance := some "sigA",
          location := none } =
      generate_image_prompts svcNone
        { rank := some 1, image := some "tree", significance := some "sigB",
          location := none } ∧
    ("sigA" : String) ≠ "sigB" := by
  refine ⟨rfl, rfl, by decide⟩

/-- Claim C9 (amended).  For every motif whose `image` key is present,
prompt synthesis returns a pair of non-empty prompt strings without
raising: on service success the two responses each get the fixed style
suffix appended deterministically, and on any service error (or a missing
`significance` key, which raises before the call) the pair is the
deterministic fallback template built from the motif's description only.
A motif with no `image` key instead raises out of the synthesizer. -/
theorem c9_amended_fallback (svc : MotifDict → Option (String × String))
    (m : MotifDict) (img : String) (h : m.image = some img) :
    ∃ n a, generate_image_prompts svc m = some (n, a) ∧ n ≠ "" ∧ a ≠ "" ∧
      ((∃ resp, svc m = some resp ∧ m.significance.isSome = true ∧
          n = resp.1 ++ natStyleSuffix ∧ a = resp.2 ++ absStyleSuffix) ∨
        (n = natFallback img ∧ a = absFallback img)) := by
  cases hs : m.significance with
  | none =>
    refine ⟨natFallback img, absFallback img, ?_, ?_, ?_, Or.inr ⟨rfl, rfl⟩⟩
    · simp [generate_image_prompts, h, hs]
    · exact natFallback_ne_empty img
    · exact absFallback_ne_empty img
  | some sig =>
    cases hsvc : svc m with
    | none =>
      refine ⟨natFallback img, absFallback img, ?_, ?_, ?_, Or.inr ⟨rfl, rfl⟩⟩
      · simp [generate_image_prompts, h, hs, hsvc]
      · exact natFallback_ne_empty img
      · exact absFallback_ne_empty img
    | some resp =>
      refine ⟨resp.1 ++ natStyleSuffix, resp.2 ++ absStyleSuffix, ?_, ?_, ?_,
        Or.inl ⟨resp, rfl, by simp [hs], rfl, rfl⟩⟩
      · simp [generate_image_prompts, h, hs, hsvc]
      · exact append_ne_empty_right _ _ (by decide)
      · exact append_ne_empty_right _ _ (by decide)

/-- Witness for the amended C9 theorem at a concrete motif and service. -/
theorem c9_amended_witness :
    motifC1.image = some "tree" ∧
    (∃ n a, generate_image_prompts svcNone motifC1 = some (n, a) ∧ n ≠ "" ∧ a ≠ "" ∧
      ((∃ resp, svcNone motifC1 = some resp ∧ motifC1.significance.isSome = true ∧
          n = resp.1 ++ natStyleSuffix ∧ a = resp.2 ++ absStyleSuffix) ∨
        (n = natFallback "tree" ∧ a = absFallback "tree"))) :=
  ⟨rfl, c9_amended_fallback svcNone motifC1 "tree" rfl⟩

/-- Claim C3: for every motif the loop processes, both prompt sidecar
writes happen before any image-generation call of that motif — in the
motif's external-call trace every prompt-write event precedes every other
event — and each sidecar file exists afterwards exactly when its own disk
write succeeded and the motif's prompts were synthesized, independently of
the outcome of the image generations and saves (the environment, hence
every failure combination, is arbitrary). -/
theorem c3_prompt_durability (env : PipeEnv) (c : Nat) (m : MotifDict) :
    ((processMotif env c m).events.filter Event.isPromptWrite ++
        (processMotif env c m).events.filter (fun e => ! e.isPromptWrite) =
      (processMotif env c m).events) ∧
    (∀ s : Style,
      (FileName.promptTxt c m.rank s ∈ (processMotif env c m).files ↔
        (env.promptWriteOk (FileName.promptTxt c m.rank s) = true ∧
          (generate_image_prompts env.promptService m).isSome = true))) := by
  cases hp : generate_image_prompts env.promptService m with
  | none => simp [processMotif, hp]
  | some prompts =>
    constructor
    · simp [processMotif, hp, Event.isPromptWrite]
    · intro s
      have hne : Style.naturalistic ≠ Style.abstract := by decide
      cases hw1 : env.promptWriteOk (FileName.promptTxt c m.rank Style.naturalistic) <;>
        cases hw2 : env.promptWriteOk (FileName.promptTxt c m.rank Style.abstract) <;>
          cases hg1 : env.genImage prompts.1 <;> cases hg2 : env.genImage prompts.2 <;>
            cases s <;>
              simp [processMotif, hp, hw1, hw2, hg1, hg2, List.mem_append] <;>
                split <;> simp

/-- Claim C8: in the repair pass, for an asset whose expected image file
is missing, a missing prompt sidecar — or a sidecar whose recovered text
is empty after discarding the first (label) line — is counted under the
distinct `missing_prompts` category, no image-generation call is issued
and no file is created for it, and the metadata loop simply moves on to
the remaining assets. -/
theorem c8_unrecoverable_prompt (env : RegenEnv) (fs : List FileName) (c : Nat)
    (r : Option Int) (s : Style) (item : MetadataRecord) (rest : List MetadataRecord)
    (st : RegenState)
    (hmiss : FileName.image c r s ∉ fs)
    (hbad : FileName.promptTxt c r s ∉ fs ∨
      (∃ lines, env.promptContent (FileName.promptTxt c r s) = some lines ∧
        promptTextOfLines lines = "")) :
    regenAsset env fs c r s = ⟨[], [], 0, 1, 0⟩ ∧
    regenRun env (item :: rest) st = regenRun env rest (regenItem env st item) := by
  refine ⟨?_, rfl⟩
  by_cases hpf : FileName.promptTxt c r s ∈ fs
  · rcases hbad with hout | ⟨lines, hlines, hempty⟩
    · exact absurd hpf hout
    · simp [regenAsset, hmiss, hpf, hlines, hempty]
  · simp [regenAsset, hmiss, hpf]

/-- Witness for the C8 theorem: a concrete repair state whose (4,1)
naturalistic image is missing and whose sidecar holds only the label
line. -/
theorem c8_witness :
    (FileName.image 4 (some 1) Style.naturalistic ∉ fsC2 ∧
      (FileName.promptTxt 4 (some 1) Style.naturalistic ∉ fsC2 ∨
        (∃ lines, envW8.promptContent (FileName.promptTxt 4 (some 1) Style.naturalistic) =
            some lines ∧ promptTextOfLines lines = ""))) ∧
    regenAsset envW8 fsC2 4 (some 1) Style.naturalistic = ⟨[], [], 0, 1, 0⟩ := by
  have h1 : FileName.image 4 (some 1) Style.naturalistic ∉ fsC2 := by decide
  have h2 : FileName.promptTxt 4 (some 1) Style.naturalistic ∉ fsC2 ∨
      (∃ lines, envW8.promptContent (FileName.promptTxt 4 (some 1) Style.naturalistic) =
          some lines ∧ promptTextOfLines lines = "") := by
    exact Or.inl (by decide)
  exact ⟨⟨h1, h2⟩,
    (c8_unrecoverable_prompt envW8 fsC2 4 (some 1) Style.naturalistic
      recDummy [] ⟨fsC2, [], 0, 0, 0⟩ h1 h2).1⟩

theorem regenRun_noop (env : RegenEnv) :
    ∀ (md : List MetadataRecord) (st : RegenState),
      (∀ item ∈ md, ∀ s : Style,
        (regenAsset env st.fs item.chapter item.rank s).genCalls = [] ∧
        (regenAsset env st.fs item.chapter item.rank s).newFiles = []) →
      (regenRun env md st).genCalls = st.genCalls ∧ (regenRun env md st).fs = st.fs := by
  intro md
  induction md with
  | nil => intro st _; exact ⟨rfl, rfl⟩
  | cons item rest ih =>
    intro st h
    have hnat := h item (by simp) Style.naturalistic
    have st1eq : (applyOutcome st
        (regenAsset env st.fs item.chapter item.rank Style.naturalistic)).fs = st.fs ∧
        (applyOutcome st
          (regenAsset env st.fs item.chapter item.rank Style.naturalistic)).genCalls =
          st.genCalls := by
      simp [applyOutcome, hnat.1, hnat.2]
    have habs := h item (by simp) Style.abstract
    have st2eq : (regenItem env st item).fs = st.fs ∧
        (regenItem env st item).genCalls = st.genCalls := by
      unfold regenItem
      simp [applyOutcome, hnat.1, hnat.2, habs.1, habs.2]
    have hrest : ∀ it ∈ rest, ∀ s : Style,
        (regenAsset env (regenItem env st item).fs it.chapter it.rank s).genCalls = [] ∧
        (regenAsset env (regenItem env st item).fs it.chapter it.rank s).newFiles = [] := by
      intro it hit s
      rw [st2eq.1]
      exact h it (by simp [hit]) s
    have hih := ih (regenItem env st item) hrest
    have hstep : regenRun env (item :: rest) st = regenRun env rest (regenItem env st item) :=
      rfl
    exact ⟨by rw [hstep, hih.1, st2eq.2], by rw [hstep, hih.2, st2eq.1]⟩

/-- Claim C2 (amended).  If an expected image file already exists, the
repair pass makes zero generation calls for that asset and leaves the
directory unchanged there (the asset is skipped).  Consequently, when
every asset is either present or unrecoverable at the end of a first
repair run — in particular after a first run in which every attempted
generation and save succeeded — a second run over the same metadata and
environment issues zero generation calls and leaves the file-existence
state identical.  (In general a second run retries exactly the assets
whose generation or save failed in the first run, so its call count need
not be zero.) -/
theorem c2_amended_idempotence (env : RegenEnv) (fs0 : List FileName)
    (md : List MetadataRecord)
    (h : ∀ item ∈ md, ∀ s : Style,
      (regenAsset env (regenerate env fs0 md).fs item.chapter item.rank s).genCalls = [] ∧
      (regenAsset env (regenerate env fs0 md).fs item.chapter item.rank s).newFiles = []) :
    (∀ (fs : List FileName) (c : Nat) (r : Option Int) (s : Style),
      FileName.image c r s ∈ fs → regenAsset env fs c r s = ⟨[], [], 0, 0, 0⟩) ∧
    (regenerate env (regenerate env fs0 md).fs md).genCalls = [] ∧
    (regenerate env (regenerate env fs0 md).fs md).fs = (regenerate env fs0 md).fs := by
  refine ⟨?_, ?_⟩
  · intro fs c r s hmem
    simp [regenAsset, hmem]
  · have := regenRun_noop env md ⟨(regenerate env fs0 md).fs, [], 0, 0, 0⟩ h
    exact this

/-- Witness for the amended C2 theorem: one record whose two image files
are both present already; both runs skip everything. -/
theorem c2_amended_witness :
    (∀ item ∈ mdW2, ∀ s : Style,
      (regenAsset envW2 (regenerate envW2 fsW2 mdW2).fs item.chapter item.rank s).genCalls
          = [] ∧
      (regenAsset envW2 (regenerate envW2 fsW2 mdW2).fs item.chapter item.rank s).newFiles
          = []) ∧
    ((regenerate envW2 (regenerate envW2 fsW2 mdW2).fs mdW2).genCalls = [] ∧
      (regenerate envW2 (regenerate envW2 fsW2 mdW2).fs mdW2).fs =
        (regenerate envW2 fsW2 mdW2).fs) :=
  ⟨by decide, (c2_amended_idempotence envW2 fsW2 mdW2 (by decide)).2⟩

/-- Claim C2, counterexample.  One record, both images missing, the
naturalistic sidecar present with usable prompt text `p`, and an
image-generation service that always fails: the first run issues one
failing generation call and creates nothing, and the second run — with no
other changes — retries and issues one generation call again, not zero as
claimed. -/
theorem c2_counterexample :
    (regenerate envC2 ((regenerate envC2 fsC2 mdC2).fs) mdC2).genCalls = ["p"] ∧
    (["p"] : List String) ≠ [] := by
  constructor
  · decide
  · decide

theorem processMotif_record_eq (env : PipeEnv) (c : Nat) (m : MotifDict)
    (rec : MetadataRecord) (h : (processMotif env c m).record = some rec) :
    ∃ prompts, generate_image_prompts env.promptService m = some prompts ∧
      rec.chapter = c ∧ rec.rank = m.rank ∧
      rec.naturalistic_path =
        (env.genImage prompts.1).map (fun _ => FileName.image c m.rank Style.naturalistic) ∧
      rec.abstract_path =
        (env.genImage prompts.2).map (fun _ => FileName.image c m.rank Style.abstract) := by
  cases hp : generate_image_prompts env.promptService m with
  | none => simp [processMotif, hp] at h
  | some prompts =>
    refine ⟨prompts, rfl, ?_⟩
    cases hg1 : env.genImage prompts.1 <;> cases hg2 : env.genImage prompts.2 <;>
      · simp [processMotif, hp, hg1, hg2] at h
        simp [← h, hg1, hg2]

theorem processMotif_record_chapter (env : PipeEnv) (c : Nat) (m : MotifDict)
    (rec : MetadataRecord) (h : (processMotif env c m).record = some rec) :
    rec.chapter = c ∧ rec.rank = m.rank := by
  obtain ⟨prompts, _, hc, hr, _, _⟩ := processMotif_record_eq env c m rec h
  exact ⟨hc, hr⟩

theorem processMotif_files_image_mem (env : PipeEnv) (c : Nat) (m : MotifDict)
    (prompts : String × String)
    (hp : generate_image_prompts env.promptService m = some prompts) (s : Style) :
    (FileName.image c m.rank s ∈ (processMotif env c m).files ↔
      ∃ url, env.genImage (styleSel s prompts) = some url ∧
        env.saveOk url (FileName.image c m.rank s) = true) := by
  cases hw1 : env.promptWriteOk (FileName.promptTxt c m.rank Style.naturalistic) <;>
    cases hw2 : env.promptWriteOk (FileName.promptTxt c m.rank Style.abstract) <;>
      cases hg1 : env.genImage prompts.1 <;> cases hg2 : env.genImage prompts.2 <;>
        cases s <;>
          simp [processMotif, hp, hw1, hw2, hg1, hg2, styleSel, List.mem_append] <;>
            split <;> simp_all

theorem analyze_length_le (resp : Option (List MotifDict)) :
    (analyze_chapter_imagery resp).length ≤ 3 := by
  cases resp with
  | none => simp [analyze_chapter_imagery]
  | some ms => exact List.length_take_le 3 _

theorem analyze_pairwise (resp : Option (List MotifDict)) :
    (analyze_chapter_imagery resp).Pairwise rankRel := by
  cases resp with
  | none => simp [analyze_chapter_imagery]
  | some ms =>
    exact (List.sorted_insertionSort rankRel ms).sublist (List.take_sublist 3 _)

theorem chapterMotifs_length_le (env : PipeEnv) (c : Nat) :
    (chapterMotifs env c).length ≤ 3 := by
  rw [chapterMotifs]
  split
  · simp
  · exact analyze_length_le _

theorem chapterMotifs_pairwise (env : PipeEnv) (c : Nat) :
    (chapterMotifs env c).Pairwise rankRel := by
  rw [chapterMotifs]
  split
  · simp
  · exact analyze_pairwise _

theorem chapterMotifs_subset_ranker (env : PipeEnv) (c : Nat) (ms : List MotifDict)
    (h : env.ranker c = some ms) : ∀ m ∈ chapterMotifs env c, m ∈ ms := by
  intro m hm
  rw [chapterMotifs] at hm
  split at hm
  · simp at hm
  · rw [h] at hm
    have h1 : m ∈ ms.insertionSort rankRel := (List.take_sublist 3 _).subset hm
    exact (List.perm_insertionSort rankRel ms).subset h1

theorem chapterMotifs_rank_nodup (env : PipeEnv) (c : Nat) (ms : List MotifDict)
    (h : env.ranker c = some ms) (hnd : (ms.map MotifDict.rank).Nodup) :
    ((chapterMotifs env c).map MotifDict.rank).Nodup := by
  rw [chapterMotifs]
  split
  · simp
  · rw [h]
    have hperm : ((ms.insertionSort rankRel).map MotifDict.rank).Perm
        (ms.map MotifDict.rank) := (List.perm_insertionSort rankRel ms).map _
    have hnd2 : ((ms.insertionSort rankRel).map MotifDict.rank).Nodup :=
      hperm.nodup_iff.mpr hnd
    exact hnd2.sublist ((List.take_sublist 3 _).map _)

theorem chapterRecords_rank_sublist (env : PipeEnv) (c : Nat) :
    List.Sublist ((chapterRecords env c).map MetadataRecord.rank)
      ((chapterMotifs env c).map MotifDict.rank) := by
  rw [chapterRecords]
  exact filterMap_map_sublist _ _ _
    (fun m rec hm => (processMotif_record_chapter env c m rec hm).2) _

theorem chapterRecords_chapter (env : PipeEnv) (c : Nat) :
    ∀ rec ∈ chapterRecords env c, rec.chapter = c := by
  intro rec hrec
  rw [chapterRecords, List.mem_filterMap] at hrec
  obtain ⟨m, _, hm⟩ := hrec
  exact (processMotif_record_chapter env c m rec hm).1

theorem metadata_filter_chapter (env : PipeEnv) (c : Nat) :
    ∀ cs : List Nat, cs.Nodup →
      ((cs.flatMap (chapterRecords env)).filter (fun r => r.chapter == c)) =
        if c ∈ cs then chapterRecords env c else [] := by
  intro cs
  induction cs with
  | nil => intro; simp
  | cons c0 rest ih =>
    intro hnd
    rw [List.nodup_cons] at hnd
    rw [List.flatMap_cons, List.filter_append, ih hnd.2]
    by_cases hcc : c0 = c
    · subst hcc
      have h1 : (chapterRecords env c0).filter (fun r => r.chapter == c0) =
          chapterRecords env c0 :=
        List.filter_eq_self.mpr fun rec hrec => by
          simp [chapterRecords_chapter env c0 rec hrec]
      rw [h1, if_neg hnd.1, if_pos (by simp)]
      simp
    · have h1 : (chapterRecords env c0).filter (fun r => r.chapter == c) = [] := by
        rw [List.filter_eq_nil_iff]
        intro rec hrec
        simp [chapterRecords_chapter env c0 rec hrec, hcc]
      rw [h1]
      by_cases hcr : c ∈ rest
      · rw [if_pos hcr, if_pos (by simp [hcr])]
        simp
      · have hnotin : c ∉ c0 :: rest := by
          rw [List.mem_cons]
          rintro (hh | hh)
          · exact hcc hh.symm
          · exact hcr hh
        rw [if_neg hcr, if_neg hnotin]
        simp

theorem flatMap_pairwise_chapter (env : PipeEnv) :
    ∀ cs : List Nat, cs.Pairwise (fun a b => a ≤ b) →
      (cs.flatMap (chapterRecords env)).Pairwise (fun a b => a.chapter ≤ b.chapter) := by
  intro cs
  induction cs with
  | nil => intro; simp
  | cons c0 rest ih =>
    intro hp
    rw [List.pairwise_cons] at hp
    rw [List.flatMap_cons, List.pairwise_append]
    refine ⟨?_, ih hp.2, ?_⟩
    · refine pairwise_of_mem_rel _ fun a ha b hb => ?_
      rw [chapterRecords_chapter env c0 a ha, chapterRecords_chapter env c0 b hb]
    · intro a ha b hb
      rw [List.mem_flatMap] at hb
      obtain ⟨c1, hc1, hb1⟩ := hb
      rw [chapterRecords_chapter env c0 a ha, chapterRecords_chapter env c1 b hb1]
      exact hp.1 c1 hc1

theorem chapterRecords_pairwise_rank (env : PipeEnv) (c : Nat) :
    (chapterRecords env c).Pairwise (fun a b => a.rank.getD 99 ≤ b.rank.getD 99) := by
  rw [chapterRecords]
  refine pairwise_filterMap_rel _ ?_ (chapterMotifs_pairwise env c)
  intro a b hab x hx y hy
  have hxa := (processMotif_record_chapter env c a x hx).2
  have hyb := (processMotif_record_chapter env c b y hy).2
  rw [hxa, hyb]
  exact hab

/-- Claim C1, counterexample.  In `envC1` both generation calls succeed
but the abstract download/save fails; `process_chapters` still records a
non-null `abstract_path` (the path is stored as soon as the URL is
obtained, because `save_image` swallows its errors), yet no file exists at
that deterministic path — contradicting both "non-null implies the file
exists" and "generation success followed by save failure yields a null
path". -/
theorem c1_counterexample :
    (process_chapters envC1).metadata.map (fun r => r.abstract_path) =
      [some (FileName.image 1 (some 1) Style.abstract)] ∧
    FileName.image 1 (some 1) Style.abstract ∉ (process_chapters envC1).files := by
  constructor
  · decide
  · decide

/-- Claim C1 (amended).  For the record a motif's processing appends and
the files that processing writes: a style's path is the deterministic
filename exactly when the generation call for that style returned a URL —
the subsequent download/save outcome does not affect the path — and in
that case the file exists iff the download/save succeeded; a null path
means the motif's processing wrote no image file for that style. -/
theorem c1_amended_null_path (env : PipeEnv) (c : Nat) (m : MotifDict)
    (rec : MetadataRecord) (h : (processMotif env c m).record = some rec) (s : Style) :
    (rec.pathFor s = none → FileName.image c m.rank s ∉ (processMotif env c m).files) ∧
    (∀ fn, rec.pathFor s = some fn →
      fn = FileName.image c m.rank s ∧
      ∃ prompts url, generate_image_prompts env.promptService m = some prompts ∧
        env.genImage (styleSel s prompts) = some url ∧
        (fn ∈ (processMotif env c m).files ↔ env.saveOk url fn = true)) := by
  obtain ⟨prompts, hp, _, _, hnat, habs⟩ := processMotif_record_eq env c m rec h
  cases s with
  | naturalistic =>
    constructor
    · intro hnone hmem
      rw [MetadataRecord.pathFor, hnat, Option.map_eq_none'] at hnone
      rw [processMotif_files_image_mem env c m prompts hp] at hmem
      obtain ⟨url, hurl, _⟩ := hmem
      rw [styleSel, hnone] at hurl
      exact Option.noConfusion hurl
    · intro fn hfn
      rw [MetadataRecord.pathFor, hnat, Option.map_eq_some'] at hfn
      obtain ⟨url, hurl, hfn⟩ := hfn
      refine ⟨hfn.symm, prompts, url, hp, by rw [styleSel, hurl], ?_⟩
      rw [← hfn, processMotif_files_image_mem env c m prompts hp]
      constructor
      · rintro ⟨url2, hurl2, hsave⟩
        rw [styleSel, hurl] at hurl2
        cases hurl2
        exact hsave
      · intro hsave
        exact ⟨url, by rw [styleSel, hurl], hsave⟩
  | abstract =>
    constructor
    · intro hnone hmem
      rw [MetadataRecord.pathFor, habs, Option.map_eq_none'] at hnone
      rw [processMotif_files_image_mem env c m prompts hp] at hmem
      obtain ⟨url, hurl, _⟩ := hmem
      rw [styleSel, hnone] at hurl
      exact Option.noConfusion hurl
    · intro fn hfn
      rw [MetadataRecord.pathFor, habs, Option.map_eq_some'] at hfn
      obtain ⟨url, hurl, hfn⟩ := hfn
      refine ⟨hfn.symm, prompts, url, hp, by rw [styleSel, hurl], ?_⟩
      rw [← hfn, processMotif_files_image_mem env c m prompts hp]
      constructor
      · rintro ⟨url2, hurl2, hsave⟩
        rw [styleSel, hurl] at hurl2
        cases hurl2
        exact hsave
      · intro hsave
        exact ⟨url, by rw [styleSel, hurl], hsave⟩

/-- Witness for the amended C1 theorem at `envC1`: the abstract path of
the produced record is non-null while the save failed, so the file-exists
equivalence is decided on the failure side. -/
theorem c1_amended_witness :
    (processMotif envC1 1 motifC1).record = some recC1 ∧
    ((recC1.pathFor Style.abstract = none →
        FileName.image 1 motifC1.rank Style.abstract ∉ (processMotif envC1 1 motifC1).files) ∧
      (∀ fn, recC1.pathFor Style.abstract = some fn →
        fn = FileName.image 1 motifC1.rank Style.abstract ∧
        ∃ prompts url, generate_image_prompts envC1.promptService motifC1 = some prompts ∧
          envC1.genImage (styleSel Style.abstract prompts) = some url ∧
          (fn ∈ (processMotif envC1 1 motifC1).files ↔
            envC1.saveOk url fn = true))) :=
  ⟨by decide, c1_amended_null_path envC1 1 motifC1 recC1 (by decide) Style.abstract⟩

/-- Claim C5, counterexample.  The reasoning service returns two motifs
that both carry rank 7; the run's metadata then holds two records for
chapter 1 whose ranks are `7, 7` — outside `{1,2,3}` and duplicated —
because the code never validates the service-supplied ranks. -/
theorem c5_counterexample :
    (process_chapters envC5).metadata.map MetadataRecord.rank = [some 7, some 7] ∧
    (some (7 : Int)) ∉ [some (1 : Int), some 2, some 3] ∧
    ¬ ([some (7 : Int), some 7] : List (Option Int)).Nodup := by
  refine ⟨by decide, by decide, by decide⟩

/-- Claim C5 (amended).  The number of metadata records per chapter is at
most 3 for every service behaviour; the records' ranks, however, are the
raw service-supplied ranks of the first three motifs after the ascending
sort, with no validation — they lie in {1,2,3} without duplicates exactly
when the ranker's own output ranks already do, which the conditional part
states. -/
theorem c5_amended_rank_bound (env : PipeEnv) (c : Nat) :
    ((process_chapters env).metadata.filter (fun r => r.chapter == c)).length ≤ 3 ∧
    (∀ ms : List MotifDict, env.ranker c = some ms →
      (ms.map MotifDict.rank).Nodup →
      (∀ m ∈ ms, m.rank = some 1 ∨ m.rank = some 2 ∨ m.rank = some 3) →
      ((((process_chapters env).metadata.filter (fun r => r.chapter == c)).map
          MetadataRecord.rank).Nodup ∧
        ∀ rec ∈ (process_chapters env).metadata.filter (fun r => r.chapter == c),
          rec.rank = some 1 ∨ rec.rank = some 2 ∨ rec.rank = some 3)) := by
  have hchar : (process_chapters env).metadata.filter (fun r => r.chapter == c) =
      if c ∈ chapterList then chapterRecords env c else [] :=
    metadata_filter_chapter env c chapterList (by decide)
  constructor
  · rw [hchar]
    split
    · rw [chapterRecords]
      exact le_trans (List.length_filterMap_le _ _) (chapterMotifs_length_le env c)
    · simp
  · intro ms hms hnd hmem
    rw [hchar]
    split
    · constructor
      · exact (chapterMotifs_rank_nodup env c ms hms hnd).sublist
          (chapterRecords_rank_sublist env c)
      · intro rec hrec
        rw [chapterRecords, List.mem_filterMap] at hrec
        obtain ⟨m, hm, hrm⟩ := hrec
        rw [(processMotif_record_chapter env c m rec hrm).2]
        exact hmem m (chapterMotifs_subset_ranker env c ms hms m hm)
    · exact ⟨by simp, by simp⟩

/-- Witness for the amended C5 theorem: a service that returns two motifs
with distinct in-range ranks for chapter 1. -/
theorem c5_amended_witness :
    (envW5.ranker 1 = some msW5 ∧ (msW5.map MotifDict.rank).Nodup ∧
      (∀ m ∈ msW5, m.rank = some 1 ∨ m.rank = some 2 ∨ m.rank = some 3)) ∧
    ((((process_chapters envW5).metadata.filter (fun r => r.chapter == 1)).map
        MetadataRecord.rank).Nodup ∧
      ∀ rec ∈ (process_chapters envW5).metadata.filter (fun r => r.chapter == 1),
        rec.rank = some 1 ∨ rec.rank = some 2 ∨ rec.rank = some 3) :=
  ⟨⟨by decide, by decide, by decide⟩,
    (c5_amended_rank_bound envW5 1).2 msW5 (by decide) (by decide) (by decide)⟩

/-- Claim C6, counterexample.  The ranker returns one motif object that
lacks the `image` key: prompt synthesis raises even in its fallback
(`KeyError` on `scene['image']`), the per-motif handler catches it and
`continue`s, and no metadata record is appended for that motif — the run
ends with an empty metadata list although one motif was ranked. -/
theorem c6_counterexample :
    (chapterMotifs envC6 1).length = 1 ∧ (process_chapters envC6).metadata = [] := by
  refine ⟨by decide, by decide⟩

/-- Claim C6 (amended).  A metadata record is appended exactly once per
ranked motif whose prompt synthesis does not raise, i.e. per motif whose
`image` key is present — in particular the record is appended even when
both of the motif's image generations fail, a failed image being a null
path, and records are never removed (the run's metadata is the
concatenation of the per-chapter appends).  A ranked motif without an
`image` key contributes no record. -/
theorem c6_amended_record_per_motif (env : PipeEnv) (c : Nat) :
    (∀ m : MotifDict, ((processMotif env c m).record).isSome = m.image.isSome) ∧
    (chapterRecords env c).length =
      (chapterMotifs env c).countP (fun m => m.image.isSome) ∧
    (process_chapters env).metadata = chapterList.flatMap (chapterRecords env) := by
  have hrec : ∀ m : MotifDict, ((processMotif env c m).record).isSome = m.image.isSome := by
    intro m
    cases hp : generate_image_prompts env.promptService m with
    | none =>
      have hi := (generate_image_prompts_none_iff env.promptService m).mp hp
      simp [processMotif, hp, hi]
    | some prompts =>
      cases hi : m.image with
      | none =>
        have := (generate_image_prompts_none_iff env.promptService m).mpr hi
        rw [hp] at this
        exact Option.noConfusion this
      | some img => simp [processMotif, hp, hi]
  refine ⟨hrec, ?_, rfl⟩
  rw [chapterRecords, len_filterMap_eq_countP]
  exact List.countP_congr fun m _ => by rw [hrec m]

/-- Claim C10: chapters are processed in ascending order 1..7; the run's
metadata lists records in nondecreasing chapter order; the records with a
given chapter are exactly that chapter's block — the per-motif appends in
the order `analyze_chapter_imagery` returned the motifs — and each block
is nondecreasing in the rank key, i.e. rank-sorted as produced by the
ranker; all of this for every combination of per-chapter and per-motif
successes and failures, since the environment is arbitrary. -/
theorem c10_metadata_ordering (env : PipeEnv) :
    chapterList.Pairwise (fun a b => a ≤ b) ∧
    (process_chapters env).metadata.Pairwise (fun a b => a.chapter ≤ b.chapter) ∧
    (∀ c : Nat, (process_chapters env).metadata.filter (fun r => r.chapter == c) =
      if c ∈ chapterList then chapterRecords env c else []) ∧
    (∀ c : Nat, (chapterRecords env c).Pairwise
      (fun a b => a.rank.getD 99 ≤ b.rank.getD 99)) := by
  refine ⟨by decide, ?_, ?_, fun c => chapterRecords_pairwise_rank env c⟩
  · exact flatMap_pairwise_chapter env chapterList (by decide)
  · intro c
    exact metadata_filter_chapter env c chapterList (by decide)
